import Mathlib

/-!
Verification development for the VideoSync repository.

Shallow embedding of the two Go programs that form the core of the repo:
the streaming node (WebSocket fan-out, host-authoritative state writes,
pub/sub broadcast) and the session director (session lifecycle, node
registry, least-loaded selection).  Redis is modelled as explicit optional
values / key-value lists, time as explicit integer parameters, and the
event-driven connection lifecycle as a step function over a node state.
-/

namespace VideoSync

/-! ## Data model

`RedisState` mirrors the `RedisState` struct of the streaming node and the
identical `SessionState` struct of the director: `paused`, `currentTime`,
`playbackRate`, `timestamp` (the two float64 fields are modelled as exact
rationals; only `timestamp : int64` takes part in any comparison). -/

structure RedisState where
  paused : Bool
  currentTime : ℚ
  playbackRate : ℚ
  timestamp : Int
  deriving Repr, DecidableEq

/-- Inbound WebSocket messages recognized by `handleClientMessage`,
tagged by the `type` JSON discriminator.  A `stateUpdate` whose `state`
field fails to deserialize is represented by `stateUpdateBad`. -/
inductive ClientMsg where
  | stateUpdate (state : RedisState)
  | stateUpdateBad
  | videoMetadata
  | heartbeat
  deriving Repr, DecidableEq

/-! ## Streaming node: host state writes (`handleClientMessage`)

The `stateUpdate` branch of `handleClientMessage`:
  * only acts when `client.isHost`;
  * reads the current value of `session:<k>:state` (modelled as
    `stored : Option RedisState`; when the key is absent the Go code gets
    `redis.Nil`, the subsequent `json.Unmarshal` of the empty string fails
    and the handler returns, so the message is discarded);
  * compares timestamps: strictly greater wins, in which case the key is
    overwritten with the inbound state and the state is published on the
    session topic; otherwise nothing is written and nothing is published.
The function returns the new value of the state key together with the
list of states published on `session-updates:<k>`. -/
def handleClientMessage (isHost : Bool) (stored : Option RedisState) :
    ClientMsg → Option RedisState × List RedisState
  | .stateUpdate m =>
      if isHost then
        match stored with
        | none => (stored, [])
        | some s =>
            if m.timestamp > s.timestamp then (some m, [m]) else (stored, [])
      else (stored, [])
  | .stateUpdateBad => (stored, [])
  | .videoMetadata => (stored, [])
  | .heartbeat => (stored, [])

/-- C1: for an inbound `stateUpdate` from a host connection with a stored
state present, the write is accepted iff the inbound timestamp is strictly
greater than the stored one; on acceptance the state key is overwritten
with the inbound state and exactly that state is published on the session
topic, otherwise the stored state is unchanged and nothing is published. -/
theorem stateUpdate_lww (s m : RedisState) :
    handleClientMessage true (some s) (.stateUpdate m) =
      (if m.timestamp > s.timestamp then (some m, [m]) else (some s, [])) := by
  by_cases h : m.timestamp > s.timestamp <;> simp [handleClientMessage, h]

/-! ## Streaming node: topic delivery (`handleSessionUpdate` / `broadcastState`)

`broadcastState` in the Go source snapshots the session bucket under the
per-session lock into `clientsToSend`, then runs TWO nested loops over the
same snapshot: for every entry of the snapshot with a non-nil socket it
marshals a `stateUpdate` payload and then, in an inner loop over the same
snapshot, non-blockingly enqueues that payload onto every entry's `send`
channel (`select`/`default`), logging a drop when a channel is full.

A connection is modelled by whether its socket is non-nil (`hasConn`), the
contents of its bounded `send` channel (`queue`, capacity `cap`; 256 in
the source) and the number of drop log lines recorded for it (`dropped`).
The node's wall clock is a fixed parameter `now` (the source calls
`time.Now().UnixMilli()` once per outer iteration). -/

/-- The outbound JSON payload `{type, state, servertime}` built by
`broadcastState` (and by the initial-state send on connect). -/
structure OutMsg where
  type : String
  state : String
  servertime : Int
  deriving Repr, DecidableEq

/-- Repackaging of a topic payload as a `stateUpdate` with the node's
current wall-clock milliseconds. -/
def mkStateUpdate (state : String) (now : Int) : OutMsg :=
  ⟨"stateUpdate", state, now⟩

/-- One `*ClientConnection` as seen by the broadcast path. -/
structure ClientConnection where
  hasConn : Bool
  queue : List OutMsg
  cap : Nat
  dropped : Nat
  deriving Repr, DecidableEq

/-- `select { case client.send <- payload: default: log drop }`, guarded by
the inner loop's `client == nil || client.conn == nil` skip. -/
def trySend (c : ClientConnection) (p : OutMsg) : ClientConnection :=
  if c.hasConn then
    if c.queue.length < c.cap then { c with queue := c.queue ++ [p] }
    else { c with dropped := c.dropped + 1 }
  else c

/-- The inner loop of `broadcastState`: one non-blocking enqueue attempt
of `p` on every connection of the snapshot. -/
def broadcastPass (cs : List ClientConnection) (p : OutMsg) : List ClientConnection :=
  cs.map (trySend · p)

/-- The outer loop of `broadcastState`: `flags` are the `conn ≠ nil` tests
of the snapshot entries in order; every entry with a non-nil socket
triggers one full inner pass. -/
def broadcastOuter : List Bool → List ClientConnection → OutMsg → List ClientConnection
  | [], cs, _ => cs
  | b :: bs, cs, p => broadcastOuter bs (if b then broadcastPass cs p else cs) p

/-- `broadcastState`: early return on an empty bucket, then the nested
loops over the snapshot. -/
def broadcastState (snapshot : List ClientConnection) (state : String) (now : Int) :
    List ClientConnection :=
  if snapshot.isEmpty then snapshot
  else broadcastOuter (snapshot.map (·.hasConn)) snapshot (mkStateUpdate state now)

/-- `handleSessionUpdate`: a message received on a subscribed session
topic is unmarshalled (`none` models a payload that fails to parse, in
which case the handler returns without broadcasting) and handed to
`broadcastState`. -/
def handleSessionUpdate (payload : Option String) (cs : List ClientConnection)
    (now : Int) : List ClientConnection :=
  match payload with
  | none => cs
  | some state => broadcastState cs state now

/-- Closed form for what the whole broadcast does to one connection after
`n` enqueue attempts: `min n freeSpace` copies are appended and the other
attempts are logged as drops; nil-socket connections are untouched. -/
def attemptN (n : Nat) (p : OutMsg) (c : ClientConnection) : ClientConnection :=
  if c.hasConn then
    { c with
      queue := c.queue ++ List.replicate (min n (c.cap - c.queue.length)) p,
      dropped := c.dropped + (n - min n (c.cap - c.queue.length)) }
  else c

lemma trySend_iterate (p : OutMsg) (k : Nat) (c : ClientConnection) :
    (trySend · p)^[k] c = attemptN k p c := by
  induction k generalizing c with
  | zero => simp [attemptN]
  | succ k ih =>
    rw [Function.iterate_succ_apply, ih]
    by_cases hc : c.hasConn
    · by_cases hq : c.queue.length < c.cap
      · have hs : c.cap - c.queue.length ≠ 0 := by omega
        have h1 : min (k + 1) (c.cap - c.queue.length)
            = min k (c.cap - (c.queue.length + 1)) + 1 := by omega
        have h2 : (k + 1) - min (k + 1) (c.cap - c.queue.length)
            = k - min k (c.cap - (c.queue.length + 1)) := by omega
        simp [trySend, attemptN, hc, hq, h1, h2, List.replicate_succ,
          List.append_assoc]
      · have h0 : c.cap - c.queue.length = 0 := by omega
        simp [trySend, attemptN, hc, hq, h0]
        omega
    · simp [trySend, attemptN, hc]

lemma broadcastOuter_eq_iterate (bs : List Bool) (cs : List ClientConnection)
    (p : OutMsg) :
    broadcastOuter bs cs p = cs.map ((trySend · p)^[bs.count true]) := by
  induction bs generalizing cs with
  | nil => simp [broadcastOuter]
  | cons b bs ih =>
    cases b with
    | false =>
      rw [broadcastOuter, if_neg (by simp), ih]
      simp [List.count_cons]
    | true =>
      rw [broadcastOuter, if_pos rfl, ih, broadcastPass, List.map_map,
        ← Function.iterate_succ]
      simp [List.count_cons]

/-- Positionwise characterization of `broadcastState`: every connection of
the snapshot independently undergoes `n` enqueue attempts, where `n` is
the number of snapshot entries with a non-nil socket. -/
lemma broadcastState_char (cs : List ClientConnection) (state : String) (now : Int) :
    broadcastState cs state now
      = cs.map (attemptN (cs.countP (·.hasConn)) (mkStateUpdate state now)) := by
  cases cs with
  | nil => simp [broadcastState]
  | cons c cs =>
    rw [broadcastState, if_neg (by simp), broadcastOuter_eq_iterate]
    have hcount : (List.map (·.hasConn) (c :: cs)).count true
        = (c :: cs).countP (·.hasConn) := by
      generalize c :: cs = l
      induction l with
      | nil => rfl
      | cons a l ih => cases ha : a.hasConn <;>
          simp [List.count_cons, List.countP_cons, ha, ih]
    rw [hcount]
    apply List.map_congr_left
    intro x _
    exact trySend_iterate _ _ x

/-- C2: a message received on a subscribed session topic is repackaged as
a `stateUpdate` carrying the state and the node's wall-clock milliseconds,
and every connection of the session's snapshot is treated independently by
non-blocking enqueue: a connection with a non-nil socket and free queue
space has the payload enqueued, a connection with a full queue has its
queue left unchanged with the drop logged, other connections are
unaffected, and nil-socket connections receive nothing. -/
theorem topic_broadcast_delivery (cs : List ClientConnection) (state : String)
    (now : Int) (hn : 1 ≤ cs.countP (·.hasConn)) :
    handleSessionUpdate (some state) cs now
      = cs.map (attemptN (cs.countP (·.hasConn)) (mkStateUpdate state now)) ∧
    (∀ c : ClientConnection, c.hasConn = true → c.queue.length < c.cap →
      mkStateUpdate state now
        ∈ (attemptN (cs.countP (·.hasConn)) (mkStateUpdate state now) c).queue) ∧
    (∀ c : ClientConnection, c.hasConn = true → c.cap ≤ c.queue.length →
      (attemptN (cs.countP (·.hasConn)) (mkStateUpdate state now) c).queue = c.queue ∧
      c.dropped < (attemptN (cs.countP (·.hasConn)) (mkStateUpdate state now) c).dropped) ∧
    (∀ c : ClientConnection, c.hasConn = false →
      attemptN (cs.countP (·.hasConn)) (mkStateUpdate state now) c = c) := by
  refine ⟨broadcastState_char cs state now, ?_, ?_, ?_⟩
  · intro c hc hq
    have hmin : 1 ≤ min (cs.countP (·.hasConn)) (c.cap - c.queue.length) := by
      omega
    simp only [attemptN, hc, if_pos]
    refine List.mem_append_right _ ?_
    exact List.mem_replicate.mpr ⟨by omega, rfl⟩
  · intro c hc hq
    have h0 : c.cap - c.queue.length = 0 := by omega
    have hqe : (attemptN (cs.countP (·.hasConn)) (mkStateUpdate state now) c).queue
        = c.queue := by
      simp [attemptN, hc, h0]
    have hd : (attemptN (cs.countP (·.hasConn)) (mkStateUpdate state now) c).dropped
        = c.dropped + cs.countP (·.hasConn) := by
      simp [attemptN, hc, h0]
    exact ⟨hqe, by rw [hd]; omega⟩
  · intro c hc
    simp [attemptN, hc]

/-- Witness for `topic_broadcast_delivery` at a one-connection snapshot. -/
theorem topic_broadcast_delivery_witness :
    1 ≤ ([(⟨true, [], 256, 0⟩ : ClientConnection)].countP (·.hasConn)) ∧
    handleSessionUpdate (some "s") [⟨true, [], 256, 0⟩] 7
      = [⟨true, [mkStateUpdate "s" 7], 256, 0⟩] :=
  ⟨by decide, by
    rw [(topic_broadcast_delivery [⟨true, [], 256, 0⟩] "s" 7 (by decide)).1]
    decide⟩

/-- C10: because `broadcastState` runs two nested loops over the same
snapshot, each connection with a non-nil socket has the repackaged payload
enqueued once per outer-loop iteration: with `n` non-nil-socket
connections and enough queue space, every such connection ends up with
`n` copies of the payload, not one. -/
theorem broadcast_duplication (cs : List ClientConnection) (state : String)
    (now : Int)
    (h : ∀ c ∈ cs, c.hasConn = true →
      c.queue.length + cs.countP (·.hasConn) ≤ c.cap) :
    broadcastState cs state now
      = cs.map (fun c =>
          if c.hasConn then
            { c with queue := c.queue ++
                List.replicate (cs.countP (·.hasConn)) (mkStateUpdate state now) }
          else c) := by
  rw [broadcastState_char]
  apply List.map_congr_left
  intro c hc
  by_cases hconn : c.hasConn
  · have hsp := h c hc hconn
    have hmin : min (cs.countP (·.hasConn)) (c.cap - c.queue.length)
        = cs.countP (·.hasConn) := by omega
    simp [attemptN, hconn, hmin]
  · simp [attemptN, hconn]

/-- Witness for `broadcast_duplication`: two live connections each receive
two copies of the same topic message. -/
theorem broadcast_duplication_witness :
    (∀ c ∈ ([⟨true, [], 256, 0⟩, ⟨true, [], 256, 0⟩] : List ClientConnection),
      c.hasConn = true →
      c.queue.length
        + ([(⟨true, [], 256, 0⟩ : ClientConnection),
            ⟨true, [], 256, 0⟩].countP (·.hasConn)) ≤ c.cap) ∧
    broadcastState [⟨true, [], 256, 0⟩, ⟨true, [], 256, 0⟩] "s" 3
      = [⟨true, [mkStateUpdate "s" 3, mkStateUpdate "s" 3], 256, 0⟩,
         ⟨true, [mkStateUpdate "s" 3, mkStateUpdate "s" 3], 256, 0⟩] :=
  ⟨by decide, by
    rw [broadcast_duplication [⟨true, [], 256, 0⟩, ⟨true, [], 256, 0⟩] "s" 3
      (by decide)]
    decide⟩

/-! ## Session director: streaming-server registry and node selection

`StreamingServer` mirrors the director's struct (the node-side struct has
the same fields minus `registered`).  `time.Time` values are modelled as
integers.  Map iteration order in `getLeastLoadedServer` is arbitrary but
fixed within a call, so the registry snapshot is modelled as a list in
iteration order.  The float64 ratio `currentLoad / capacity` is modelled
as an exact rational (all claims are stated for positive capacities). -/

structure StreamingServer where
  id : String
  url : String
  capacity : Int
  currentLoad : Int
  status : String
  lastPing : Int
  registered : Int
  deriving Repr, DecidableEq

/-- The load of a server as computed by `getLeastLoadedServer`. -/
def loadOf (s : StreamingServer) : ℚ :=
  (s.currentLoad : ℚ) / (s.capacity : ℚ)

/-- The loop of `getLeastLoadedServer`: `best`/`lowest` are the
`bestServer`/`lowestLoad` accumulators (`lowestLoad` starts at `1.0`,
non-active entries are skipped, strict improvement is required). -/
def selectLoop : List StreamingServer → Option StreamingServer → ℚ →
    Option StreamingServer
  | [], best, _ => best
  | s :: rest, best, lowest =>
      if s.status = "active" then
        if loadOf s < lowest then selectLoop rest (some s) (loadOf s)
        else selectLoop rest best lowest
      else selectLoop rest best lowest

def getLeastLoadedServer (servers : List StreamingServer) : Option StreamingServer :=
  selectLoop servers none 1

lemma selectLoop_eq_none (servers : List StreamingServer) :
    ∀ best lowest, selectLoop servers best lowest = none ↔
      (best = none ∧ ∀ s ∈ servers, ¬(s.status = "active" ∧ loadOf s < lowest)) := by
  induction servers with
  | nil => intro best lowest; simp [selectLoop]
  | cons s rest ih =>
    intro best lowest
    by_cases hst : s.status = "active"
    · by_cases hld : loadOf s < lowest
      · rw [selectLoop, if_pos hst, if_pos hld, ih]
        constructor
        · rintro ⟨h, -⟩; exact absurd h (by simp)
        · rintro ⟨-, hall⟩
          exact absurd ⟨hst, hld⟩ (hall s (by simp))
      · rw [selectLoop, if_pos hst, if_neg hld, ih]
        constructor
        · rintro ⟨h1, h2⟩
          refine ⟨h1, ?_⟩
          intro x hx
          rcases List.mem_cons.mp hx with hx | hx
          · subst hx; exact fun h => hld h.2
          · exact h2 x hx
        · rintro ⟨h1, h2⟩
          exact ⟨h1, fun x hx => h2 x (List.mem_cons_of_mem _ hx)⟩
    · rw [selectLoop, if_neg hst, ih]
      constructor
      · rintro ⟨h1, h2⟩
        refine ⟨h1, ?_⟩
        intro x hx
        rcases List.mem_cons.mp hx with hx | hx
        · subst hx; exact fun h => hst h.1
        · exact h2 x hx
      · rintro ⟨h1, h2⟩
        exact ⟨h1, fun x hx => h2 x (List.mem_cons_of_mem _ hx)⟩

lemma selectLoop_mem (servers : List StreamingServer) :
    ∀ best lowest b, selectLoop servers best lowest = some b →
      best = some b ∨ (b ∈ servers ∧ b.status = "active") := by
  induction servers with
  | nil => intro best lowest b h; exact Or.inl h
  | cons s rest ih =>
    intro best lowest b h
    by_cases hst : s.status = "active"
    · by_cases hld : loadOf s < lowest
      · rw [selectLoop, if_pos hst, if_pos hld] at h
        rcases ih _ _ _ h with h | h
        · have hsb : s = b := Option.some.inj h
          subst hsb
          exact Or.inr ⟨List.mem_cons_self _ _, hst⟩
        · exact Or.inr ⟨List.mem_cons_of_mem _ h.1, h.2⟩
      · rw [selectLoop, if_pos hst, if_neg hld] at h
        rcases ih _ _ _ h with h | h
        · exact Or.inl h
        · exact Or.inr ⟨List.mem_cons_of_mem _ h.1, h.2⟩
    · rw [selectLoop, if_neg hst] at h
      rcases ih _ _ _ h with h | h
      · exact Or.inl h
      · exact Or.inr ⟨List.mem_cons_of_mem _ h.1, h.2⟩

lemma selectLoop_min (servers : List StreamingServer) :
    ∀ best lowest, (∀ x, best = some x → loadOf x = lowest) →
      ∀ b, selectLoop servers best lowest = some b →
        loadOf b ≤ lowest ∧
        (∀ s ∈ servers, s.status = "active" → loadOf b ≤ loadOf s) ∧
        (best = none → loadOf b < lowest) := by
  induction servers with
  | nil =>
    intro best lowest hinv b h
    refine ⟨le_of_eq (hinv b h), by simp, ?_⟩
    intro hn; rw [hn] at h; exact absurd h (by simp [selectLoop])
  | cons s rest ih =>
    intro best lowest hinv b h
    by_cases hst : s.status = "active"
    · by_cases hld : loadOf s < lowest
      · rw [selectLoop, if_pos hst, if_pos hld] at h
        obtain ⟨h1, h2, -⟩ := ih (some s) (loadOf s)
          (fun x hx => by rw [Option.some_inj.mp hx]) b h
        refine ⟨h1.trans hld.le, ?_, fun _ => h1.trans_lt hld⟩
        intro x hx hxa
        rcases List.mem_cons.mp hx with hx | hx
        · subst hx; exact h1
        · exact h2 x hx hxa
      · rw [selectLoop, if_pos hst, if_neg hld] at h
        obtain ⟨h1, h2, h3⟩ := ih best lowest hinv b h
        refine ⟨h1, ?_, h3⟩
        intro x hx hxa
        rcases List.mem_cons.mp hx with hx | hx
        · subst hx; exact h1.trans (not_lt.mp hld)
        · exact h2 x hx hxa
    · rw [selectLoop, if_neg hst] at h
      obtain ⟨h1, h2, h3⟩ := ih best lowest hinv b h
      refine ⟨h1, ?_, h3⟩
      intro x hx hxa
      rcases List.mem_cons.mp hx with hx | hx
      · subst hx; exact absurd hxa hst
      · exact h2 x hx hxa

/-- C6: over a registry snapshot in which every capacity is positive,
`getLeastLoadedServer` returns `none` iff no entry is active with
`currentLoad < capacity`, and any returned entry is such an entry of
minimal `currentLoad / capacity` ratio. -/
theorem getLeastLoadedServer_spec (servers : List StreamingServer)
    (hcap : ∀ s ∈ servers, 0 < s.capacity) :
    (getLeastLoadedServer servers = none ↔
      ∀ s ∈ servers, ¬(s.status = "active" ∧ s.currentLoad < s.capacity)) ∧
    (∀ b, getLeastLoadedServer servers = some b →
      b ∈ servers ∧ b.status = "active" ∧ b.currentLoad < b.capacity ∧
      ∀ s ∈ servers, s.status = "active" → s.currentLoad < s.capacity →
        loadOf b ≤ loadOf s) := by
  have hlt : ∀ s ∈ servers, (loadOf s < 1 ↔ s.currentLoad < s.capacity) := by
    intro s hs
    have hc : (0 : ℚ) < (s.capacity : ℚ) := by
      exact_mod_cast hcap s hs
    rw [loadOf, div_lt_one hc]
    exact Int.cast_lt
  constructor
  · rw [getLeastLoadedServer, selectLoop_eq_none]
    simp only [true_and]
    constructor
    · intro h s hs hcon
      exact h s hs ⟨hcon.1, (hlt s hs).mpr hcon.2⟩
    · intro h s hs hcon
      exact h s hs ⟨hcon.1, (hlt s hs).mp hcon.2⟩
  · intro b hb
    rw [getLeastLoadedServer] at hb
    have hmem := selectLoop_mem servers none 1 b hb
    have hmin := selectLoop_min servers none 1 (by simp) b hb
    rcases hmem with h | ⟨hbm, hba⟩
    · exact absurd h (by simp)
    · refine ⟨hbm, hba, ?_, ?_⟩
      · exact (hlt b hbm).mp (hmin.2.2 rfl)
      · intro s hs hsa _
        exact hmin.2.1 s hs hsa

/-- Witness for `getLeastLoadedServer_spec`: an active server already at
capacity is skipped, so a registry containing only it yields no node. -/
theorem getLeastLoadedServer_spec_witness :
    (∀ s ∈ [(⟨"a", "u", 100, 100, "active", 0, 0⟩ : StreamingServer)],
      0 < s.capacity) ∧
    getLeastLoadedServer [⟨"a", "u", 100, 100, "active", 0, 0⟩] = none :=
  ⟨by decide,
    (getLeastLoadedServer_spec [⟨"a", "u", 100, 100, "active", 0, 0⟩]
      (by decide)).1.mpr (by decide)⟩

/-! ## Session director: `validateSession` -/

/-- The JSON body/status produced by `validateSession` (`respondJSON` /
`respondError`); absent JSON fields are `none`. -/
structure ValidateResp where
  status : Nat
  valid : Option Bool
  isHost : Option Bool
  streamingUrl : Option String
  error : Option String
  deriving Repr, DecidableEq

/-- The URL massaging done by `validateSession` before responding:
prepend `http://` when the URL does not start with `http`, then trim one
trailing `/`. -/
def normalizeServerURL (u : String) : String :=
  let u1 := if u.startsWith "http" then u else "http://" ++ u
  if u1.endsWith "/" then u1.dropRight 1 else u1

/-- `validateSession`, on an error-free keyspace.  Inputs: whether the
existence key `session:<k>` is present, the stored host token (the value
of `session:<k>:host`, if any), the `hostToken` query parameter (`""`
when not supplied, as in the Go code), and the registry snapshot. -/
def validateSession (sessExists : Bool) (storedHostToken : Option String)
    (hostToken : String) (servers : List StreamingServer) : ValidateResp :=
  if !sessExists then ⟨200, some false, none, none, some "session_not_found"⟩
  else
    let isHost := hostToken ≠ "" ∧ storedHostToken = some hostToken
    match getLeastLoadedServer servers with
    | none => ⟨503, none, none, none, some "no_streaming_servers_available"⟩
    | some srv =>
        ⟨200, some true, some (decide isHost), some (normalizeServerURL srv.url), none⟩

/-- C3: a validate call on a missing session returns HTTP 200 with
`valid=false` and error `session_not_found`; on an existing session with
a selected node it returns 200 with `valid=true`, `isHost` true exactly
when a host token was supplied and equals the stored one, and the node's
URL; on an existing session with no selectable node it fails with HTTP
503 and error `no_streaming_servers_available` and carries no URL. -/
theorem validateSession_semantics (sessExists : Bool)
    (storedHostToken : Option String) (hostToken : String)
    (servers : List StreamingServer) :
    (sessExists = false →
      validateSession sessExists storedHostToken hostToken servers
        = ⟨200, some false, none, none, some "session_not_found"⟩) ∧
    (sessExists = true → ∀ srv, getLeastLoadedServer servers = some srv →
      validateSession sessExists storedHostToken hostToken servers
        = ⟨200, some true,
            some (decide (hostToken ≠ "" ∧ storedHostToken = some hostToken)),
            some (normalizeServerURL srv.url), none⟩ ∧
      ((validateSession sessExists storedHostToken hostToken servers).isHost
          = some true ↔
        hostToken ≠ "" ∧ storedHostToken = some hostToken)) ∧
    (sessExists = true → getLeastLoadedServer servers = none →
      validateSession sessExists storedHostToken hostToken servers
        = ⟨503, none, none, none, some "no_streaming_servers_available"⟩) := by
  refine ⟨?_, ?_, ?_⟩
  · intro h; subst h; rfl
  · intro h srv hsrv
    subst h
    constructor
    · simp [validateSession, hsrv]
    · simp [validateSession, hsrv]
  · intro h hnone
    subst h
    simp [validateSession, hnone]

/-- Witness for `validateSession_semantics`: an existing session with an
empty registry yields the 503 `no_streaming_servers_available` error. -/
theorem validateSession_semantics_witness :
    validateSession true (some "tok") "tok" []
      = ⟨503, none, none, none, some "no_streaming_servers_available"⟩ :=
  (validateSession_semantics true (some "tok") "tok" []).2.2 rfl rfl

/-! ## Session director: registry registration and heartbeat

The registry `streamingServers` is modelled as a map from node ID to
entry.  Both handlers decode a descriptor and answer HTTP 200 (the
malformed-JSON 400 path is out of scope of the claims). -/

/-- `registerStreamingServer`: store the decoded descriptor under its ID,
overwriting any previous entry, after stamping `Registered` and
`LastPing` with the current time.  Note the descriptor's `Status` field
is stored as sent — the handler does not overwrite it. -/
def registerStreamingServer (reg : String → Option StreamingServer)
    (desc : StreamingServer) (now : Int) :
    (String → Option StreamingServer) × Nat :=
  (fun id => if id = desc.id
    then some { desc with lastPing := now, registered := now }
    else reg id, 200)

/-- `handleHeartbeat`: when an entry with the descriptor's ID exists,
update its load and last-ping and re-set its status to active; otherwise
do nothing.  Either way the handler answers HTTP 200. -/
def handleHeartbeat (reg : String → Option StreamingServer)
    (desc : StreamingServer) (now : Int) :
    (String → Option StreamingServer) × Nat :=
  (fun id => if id = desc.id then
      match reg desc.id with
      | some e => some { e with currentLoad := desc.currentLoad,
                                lastPing := now, status := "active" }
      | none => none
    else reg id, 200)

/-- C7 counterexample: registering a descriptor whose status field is
`"inactive"` stores the entry with status `"inactive"`, so register does
NOT set status to active regardless of the descriptor. -/
theorem register_status_cex :
    ((registerStreamingServer (fun _ => none)
        ⟨"n1", "u", 100, 0, "inactive", 0, 0⟩ 5).1 "n1")
      = some ⟨"n1", "u", 100, 0, "inactive", 5, 5⟩ ∧
    ("inactive" : String) ≠ "active" := by
  constructor
  · rfl
  · decide

/-- C7 as amended: register inserts or replaces the registry entry for
the descriptor's node ID with last-ping (and registration time) set to
now, keeping every descriptor field including its status as sent; a
heartbeat updates load and last-ping and re-sets status to active only
when an entry with that ID exists, and a heartbeat carrying an unknown ID
leaves the registry completely unchanged; both return HTTP 200. -/
theorem register_heartbeat_spec (reg : String → Option StreamingServer)
    (desc : StreamingServer) (now : Int) :
    ((registerStreamingServer reg desc now).1 desc.id
        = some { desc with lastPing := now, registered := now } ∧
      (∀ id2, id2 ≠ desc.id →
        (registerStreamingServer reg desc now).1 id2 = reg id2) ∧
      (registerStreamingServer reg desc now).2 = 200) ∧
    ((∀ e, reg desc.id = some e →
        (handleHeartbeat reg desc now).1 desc.id
          = some { e with currentLoad := desc.currentLoad,
                          lastPing := now, status := "active" }) ∧
      (reg desc.id = none →
        ∀ id2, (handleHeartbeat reg desc now).1 id2 = reg id2) ∧
      (∀ id2, id2 ≠ desc.id →
        (handleHeartbeat reg desc now).1 id2 = reg id2) ∧
      (handleHeartbeat reg desc now).2 = 200) := by
  refine ⟨⟨by simp [registerStreamingServer], ?_, rfl⟩,
          ⟨?_, ?_, ?_, rfl⟩⟩
  · intro id2 h2
    simp [registerStreamingServer, h2]
  · intro e he
    simp [handleHeartbeat, he]
  · intro hnone id2
    by_cases h2 : id2 = desc.id
    · subst h2; simp [handleHeartbeat, hnone]
    · simp [handleHeartbeat, h2]
  · intro id2 h2
    simp [handleHeartbeat, h2]

/-- Witness for `register_heartbeat_spec`: a heartbeat for an ID absent
from an empty registry leaves the registry empty. -/
theorem register_heartbeat_spec_witness :
    (handleHeartbeat (fun _ => none) ⟨"n1", "u", 100, 7, "active", 0, 0⟩ 9).1 "x"
      = none :=
  (register_heartbeat_spec (fun _ => none) ⟨"n1", "u", 100, 7, "active", 0, 0⟩
    9).2.2.1 rfl "x"

/-! ## Session director: `createSession`

`SessionState` mirrors the director's struct of that name.  The wall
clock is a pair of the two readings Go offers (`time.Now().Unix()` in
seconds and `time.Now().UnixMilli()` in milliseconds); `createSession`
uses `Unix()`.  The three Redis keys written for the new session are
modelled as an explicit keyspace record; the randomly generated UUIDs are
parameters.  Each `SetEX` may fail (`w1`/`w2`/`w3` are the success flags
of the three writes in program order); on failure the handler responds
HTTP 500 `Failed to create session` and returns at once. -/

structure SessionState where
  paused : Bool
  currentTime : ℚ
  playbackRate : ℚ
  timestamp : Int
  deriving Repr, DecidableEq

structure WallClock where
  unixSec : Int
  unixMilli : Int
  deriving Repr, DecidableEq

/-- The three session keys (`session:<k>`, `session:<k>:host`,
`session:<k>:state`) as they stand after a call. -/
structure Keyspace where
  existence : Option String
  host : Option String
  state : Option SessionState
  deriving Repr, DecidableEq

inductive HttpResult where
  | ok (sessionKey hostToken : String)
  | error (status : Nat) (msg : String)
  deriving Repr, DecidableEq

/-- `createSession`. -/
def createSession (sessionKey hostToken : String) (now : WallClock)
    (ks : Keyspace) (w1 w2 w3 : Bool) : Keyspace × HttpResult :=
  if !w1 then (ks, .error 500 "Failed to create session")
  else
    let ks1 := { ks with existence := some "active" }
    if !w2 then (ks1, .error 500 "Failed to create session")
    else
      let ks2 := { ks1 with host := some hostToken }
      if !w3 then (ks2, .error 500 "Failed to create session")
      else
        ({ ks2 with state := some ⟨true, 0, 1, now.unixSec⟩ },
          .ok sessionKey hostToken)

/-- C4: the initial `PlaybackState` written by a successful
`createSession` has `paused=true`, `currentTime=0`, `playbackRate=1.0`
and a timestamp taken from `time.Now().Unix()` — i.e. SECONDS since
epoch, not the milliseconds the data model prescribes (the repository's
other initial-state writer, `handleVideoUpload`, and the streaming node
both use `UnixMilli()`).  Evaluated at a clock reading 1700000000 s =
1700000000500 ms, the stored timestamp is 1700000000, which differs from
the creation time expressed in milliseconds. -/
theorem createSession_timestamp_seconds :
    (createSession "k" "h" ⟨1700000000, 1700000000500⟩
        ⟨none, none, none⟩ true true true)
      = (⟨some "active", some "h", some ⟨true, 0, 1, 1700000000⟩⟩,
          .ok "k" "h") ∧
    (1700000000 : Int) ≠ 1700000000500 := by
  constructor
  · rfl
  · decide

/-- C5 counterexample: start from an empty keyspace and let the second
write (the host token) fail.  The call fails, but the first write — the
existence sentinel — remains in the keyspace: nothing is rolled back. -/
theorem createSession_no_rollback_cex :
    (createSession "k" "h" ⟨0, 0⟩ ⟨none, none, none⟩ true false true)
      = (⟨some "active", none, none⟩, .error 500 "Failed to create session") ∧
    (⟨some "active", none, none⟩ : Keyspace).existence ≠ none := by
  constructor
  · rfl
  · decide

/-- C5 as amended: if any of the three keyspace writes fails,
`createSession` aborts with an HTTP 500 `Failed to create session` error;
no rollback is attempted, so every write performed before the failing one
remains in the keyspace (expiring only through its TTL). -/
theorem createSession_failure_behavior (sessionKey hostToken : String)
    (now : WallClock) (ks : Keyspace) (w2 w3 : Bool) :
    (createSession sessionKey hostToken now ks false w2 w3
      = (ks, .error 500 "Failed to create session")) ∧
    (createSession sessionKey hostToken now ks true false w3
      = ({ ks with existence := some "active" },
          .error 500 "Failed to create session")) ∧
    (createSession sessionKey hostToken now ks true true false
      = ({ ks with existence := some "active", host := some hostToken },
          .error 500 "Failed to create session")) :=
  ⟨rfl, rfl, rfl⟩

/-! ## Streaming node: connection lifecycle (`handleWebSocket` /
`cleanupClient`)

The node's mutable globals are modelled as a `Node`: the `clients`
map (session ID → bucket of connections, a connection being identified
by the Go pointer, modelled as a `Nat`), the `numClients` counter, and
the multiset of pub/sub subscriptions that `subscribeToSessionUpdates`
has created (each call to it makes a fresh `redis.PubSub` with its own
receive goroutine; the global `pubsub` variable is overwritten but the
previous subscription keeps running, so subscriptions only accumulate).

Connect and disconnect are the two lifecycle events: `connect` is the
registration part of `handleWebSocket` after a successful upgrade
(append to the bucket, increment the counter, subscribe), `disconnect`
is `cleanupClient` (run exactly once per connection via `defer`). -/

/-- First-occurrence lookup in the bucket map (Go map read). -/
def findBucket : List (String × List Nat) → String → Option (List Nat)
  | [], _ => none
  | p :: rest, sid => if p.1 = sid then some p.2 else findBucket rest sid

/-- Go map assignment: replace the bucket if the key exists, otherwise
add it. -/
def setBucket : List (String × List Nat) → String → List Nat →
    List (String × List Nat)
  | [], sid, b => [(sid, b)]
  | p :: rest, sid, b =>
      if p.1 = sid then (p.1, b) :: rest else p :: setBucket rest sid b

structure Node where
  clients : List (String × List Nat)
  numClients : Int
  subs : List String
  deriving Repr, DecidableEq

def initialNode : Node := ⟨[], 0, []⟩

/-- The bucket of a session (empty when the key is absent). -/
def bucketOf (n : Node) (sid : String) : List Nat :=
  (findBucket n.clients sid).getD []

/-- `handleWebSocket` registration: append the new connection to the
session bucket, increment `numClients`, and call
`subscribeToSessionUpdates` (which happens on EVERY accepted connection,
not only the first of a session). -/
def handleWebSocketConnect (n : Node) (sid : String) (cid : Nat) : Node :=
  { clients := setBucket n.clients sid (bucketOf n sid ++ [cid]),
    numClients := n.numClients + 1,
    subs := n.subs ++ [sid] }

/-- `cleanupClient`: no-op on an empty session ID or a missing/empty
bucket; otherwise remove the first matching connection from the bucket
and decrement `numClients`.  No subscription is ever torn down. -/
def cleanupClient (n : Node) (sid : String) (cid : Nat) : Node :=
  if sid = "" then n
  else
    match findBucket n.clients sid with
    | none => n
    | some b =>
        if b = [] then n
        else
          { clients := setBucket n.clients sid (b.erase cid),
            numClients := n.numClients - 1,
            subs := n.subs }

inductive Event where
  | connect (sid : String) (cid : Nat)
  | disconnect (sid : String) (cid : Nat)
  deriving Repr, DecidableEq

def step (n : Node) : Event → Node
  | .connect sid cid => handleWebSocketConnect n sid cid
  | .disconnect sid cid => cleanupClient n sid cid

/-- All live connection identifiers on the node. -/
def allConnIds (n : Node) : List Nat :=
  (n.clients.map Prod.snd).flatten

/-- Admissible events: a connect carries a non-empty session ID (enforced
by `handleWebSocket`'s 400 guard) and a fresh connection identity (a new
`*ClientConnection` pointer); a disconnect is the (single, deferred)
cleanup of a connection currently attached under its session. -/
def legalEvent (n : Node) : Event → Bool
  | .connect sid cid => sid ≠ "" && !(allConnIds n).contains cid
  | .disconnect sid cid => sid ≠ "" && (bucketOf n sid).contains cid

def run (n : Node) : List Event → Node
  | [] => n
  | e :: es => run (step n e) es

def legalTrace (n : Node) : List Event → Bool
  | [] => true
  | e :: es => legalEvent n e && legalTrace (step n e) es

/-- Total number of locally attached connections, over all sessions. -/
def totalConns (n : Node) : Int :=
  (n.clients.map (fun p => (p.2.length : Int))).sum

lemma totalConns_setBucket (l : List (String × List Nat)) (sid : String)
    (b : List Nat) :
    ((setBucket l sid b).map (fun p => (p.2.length : Int))).sum
      = (l.map (fun p => (p.2.length : Int))).sum + (b.length : Int)
        - (((findBucket l sid).getD []).length : Int) := by
  induction l with
  | nil => simp [setBucket, findBucket]
  | cons p rest ih =>
    by_cases h : p.1 = sid
    · simp [setBucket, findBucket, h]
      ring
    · simp [setBucket, findBucket, h, ih]
      ring

lemma step_inv (n : Node) (e : Event) (hinv : n.numClients = totalConns n)
    (hleg : legalEvent n e = true) :
    (step n e).numClients = totalConns (step n e) := by
  cases e with
  | connect sid cid =>
    simp only [step, handleWebSocketConnect, totalConns, bucketOf] at *
    rw [totalConns_setBucket]
    simp [hinv]
    ring
  | disconnect sid cid =>
    simp only [legalEvent, Bool.and_eq_true, decide_eq_true_eq] at hleg
    obtain ⟨hsid, hmem⟩ := hleg
    have hmem' : cid ∈ bucketOf n sid := by
      simpa using hmem
    rcases hb : findBucket n.clients sid with _ | b
    · simpa [step, cleanupClient, if_neg hsid, hb] using hinv
    · have hbne : b ≠ [] := by
        intro hnil
        rw [bucketOf, hb, hnil] at hmem'
        simp at hmem'
      have hblen : (b.erase cid).length = b.length - 1 := by
        apply List.length_erase_of_mem
        rw [bucketOf, hb] at hmem'
        simpa using hmem'
      have hbpos : 0 < b.length := by
        cases b with
        | nil => exact absurd rfl hbne
        | cons _ _ => simp
      simp only [step, cleanupClient, if_neg hsid, hb, if_neg hbne]
      simp only [totalConns] at hinv ⊢
      rw [totalConns_setBucket, hb]
      simp only [Option.getD_some]
      omega

lemma run_inv (es : List Event) :
    ∀ n, n.numClients = totalConns n → legalTrace n es = true →
      (run n es).numClients = totalConns (run n es) := by
  induction es with
  | nil => intro n h _; exact h
  | cons e es ih =>
    intro n h hleg
    rw [legalTrace, Bool.and_eq_true] at hleg
    exact ih (step n e) (step_inv n e h hleg.1) hleg.2

/-- C8: starting from an empty node, after any admissible sequence of
connect and disconnect events — each accepted WebSocket connection
incrementing the counter once on attach, each disconnect running its
single deferred cleanup — the node's load counter `numClients` equals the
total number of live locally-attached connections over all sessions. -/
theorem load_counter_invariant (es : List Event)
    (h : legalTrace initialNode es = true) :
    (run initialNode es).numClients = totalConns (run initialNode es) :=
  run_inv es initialNode rfl h

/-- Witness for `load_counter_invariant`: two connects to two sessions
followed by one disconnect leave the counter at 1 = one live connection. -/
theorem load_counter_invariant_witness :
    legalTrace initialNode
        [.connect "a" 1, .connect "b" 2, .disconnect "a" 1] = true ∧
    (run initialNode
        [.connect "a" 1, .connect "b" 2, .disconnect "a" 1]).numClients
      = totalConns (run initialNode
          [.connect "a" 1, .connect "b" 2, .disconnect "a" 1]) :=
  ⟨by decide,
    load_counter_invariant [.connect "a" 1, .connect "b" 2, .disconnect "a" 1]
      (by decide)⟩

/-! ## Streaming node: subscription lifecycle -/

/-- Connect events for a given session in a trace. -/
def countConnects (es : List Event) (sid : String) : Nat :=
  es.countP (fun e => match e with
    | .connect s _ => s = sid
    | .disconnect _ _ => false)

/-- C9 counterexample: after a second viewer connects to the same
session, two subscriptions to that session's topic have been created —
not at most one. -/
theorem subscribe_per_connection_cex :
    (run initialNode [.connect "s" 1, .connect "s" 2]).subs.count "s" = 2 ∧
    ¬((run initialNode [.connect "s" 1, .connect "s" 2]).subs.count "s" ≤ 1) := by
  constructor
  · rfl
  · decide

/-- C9 as amended: `subscribeToSessionUpdates` is called unconditionally
for every accepted connection, so every viewer connection — not only the
first — creates one more subscription to its session's topic, and no
disconnect removes one: after any event sequence the number of
subscriptions created for a session equals its number of connect events. -/
theorem subscription_per_connection (es : List Event) (sid : String) :
    ∀ n, (run n es).subs.count sid = n.subs.count sid + countConnects es sid := by
  induction es with
  | nil => intro n; simp [run, countConnects]
  | cons e es ih =>
    intro n
    rw [run, ih]
    cases e with
    | connect s cid =>
      by_cases hs : s = sid
      · subst hs
        simp [step, handleWebSocketConnect, countConnects, List.countP_cons]
        omega
      · simp [step, handleWebSocketConnect, countConnects, List.countP_cons, hs,
          List.count_append, List.count_cons]
    | disconnect s cid =>
      have hsubs : (step n (.disconnect s cid)).subs = n.subs := by
        simp only [step, cleanupClient]
        split
        · rfl
        · split
          · rfl
          · split <;> rfl
      rw [hsubs]
      simp [countConnects, List.countP_cons]

end VideoSync
